import Mathlib

/-!
Verification development for the datacontract-mcp federation layer.

Strings from the Python source are modelled as lists of characters
(`Str`), Python dictionaries as association lists, exceptions as
`Except` values, and wall-clock timestamps as natural numbers.  Each
definition below is a shallow embedding of one function of the
repository, named after it where Lean allows.
-/

namespace DCMcp

/-- Python strings, modelled as lists of characters. -/
abbrev Str := List Char

/-- Shorthand turning a Lean string literal into the `Str` model. -/
def strL (s : String) : Str := s.data

/-- Model of Python `s.split(sep, 1)` guarded by `sep in s`: splits a
string at the first occurrence of a character, returning `none` when the
character does not occur. -/
def splitFirst (c : Char) : Str → Option (Str × Str)
  | [] => none
  | x :: xs =>
    if x = c then some ([], xs)
    else (splitFirst c xs).map (fun p => (x :: p.1, p.2))

theorem splitFirst_not_mem {c : Char} {s : Str} (h : c ∉ s) :
    splitFirst c s = none := by
  induction s with
  | nil => rfl
  | cons x xs ih =>
    simp only [List.mem_cons, not_or] at h
    simp [splitFirst, Ne.symm h.1, ih h.2]

theorem splitFirst_append {c : Char} (l r : Str) (h : c ∉ l) :
    splitFirst c (l ++ c :: r) = some (l, r) := by
  induction l with
  | nil => simp [splitFirst]
  | cons x xs ih =>
    simp only [List.mem_cons, not_or] at h
    simp [splitFirst, Ne.symm h.1, ih h.2]

/-! ### Association lists, modelling Python dictionaries

Python dictionaries have unique keys; `upsertA` models `d[k] = v`
(replace in place or append), `eraseA` models `del d[k]`, and `lookupA`
models `d.get(k)`. -/

/-- Model of `d.get(k)` on a Python dictionary. -/
def lookupA {ν α : Type} [DecidableEq ν] : List (ν × α) → ν → Option α
  | [], _ => none
  | (k', v) :: rest, k => if k' = k then some v else lookupA rest k

/-- Model of `d[k] = v` on a Python dictionary. -/
def upsertA {ν α : Type} [DecidableEq ν] : List (ν × α) → ν → α → List (ν × α)
  | [], k, v => [(k, v)]
  | (k', v') :: rest, k, v =>
    if k' = k then (k, v) :: rest else (k', v') :: upsertA rest k v

/-- Model of `del d[k]` on a Python dictionary (keys are unique, so
removing every pair with the key is faithful). -/
def eraseA {ν α : Type} [DecidableEq ν] (l : List (ν × α)) (k : ν) : List (ν × α) :=
  l.filter (fun p => p.1 ≠ k)

theorem lookupA_upsertA_self {ν α : Type} [DecidableEq ν]
    (l : List (ν × α)) (k : ν) (v : α) : lookupA (upsertA l k v) k = some v := by
  induction l with
  | nil => simp [upsertA, lookupA]
  | cons p rest ih =>
    by_cases h : p.1 = k
    · simp [upsertA, h, lookupA]
    · simp [upsertA, h, lookupA, ih]

theorem lookupA_eraseA_self {ν α : Type} [DecidableEq ν]
    (l : List (ν × α)) (k : ν) : lookupA (eraseA l k) k = none := by
  induction l with
  | nil => rfl
  | cons p rest ih =>
    by_cases h : p.1 = k
    · simpa [eraseA, h] using ih
    · simpa [eraseA, h, lookupA] using ih

/-! ### Asset identifiers

Embedding of `src/datacontract_mcp/asset_identifier.py`: the registered
source names, `AssetIdentifier.from_string`, `__init__` validation and
`__str__` formatting. -/

/-- Parsed asset identifier: the triple produced by
`identifier_class.from_parts(asset_type, asset_id)` whose `source`
property returns the registered source name. -/
structure AssetIdent where
  source : Str
  assetType : Str
  assetId : Str
  deriving DecidableEq, Repr

/-- The source names registered at module load by the
`AssetIdentifier.register` decorators. -/
def registry : List Str := [strL "local", strL "datameshmanager"]

/-- The two asset type tokens accepted by `AssetIdentifier.__init__`. -/
def knownTypes : List Str := [strL "product", strL "contract"]

/-- The distinct `ValueError` messages raised while parsing an
identifier string or constructing an identifier. -/
inductive ParseErr where
  | invalidFormat
  | missingSource
  | missingType
  | missingId
  | unknownSource
  | invalidAssetType
  deriving DecidableEq, Repr

/-- Embedding of `AssetIdentifier.from_string`: split on the first colon
and the first slash, validate non-empty components, look up the source in
the registry, then build the identifier through `from_parts`, whose
`__init__` validates the asset type token. -/
def AssetIdentifier.from_string (s : Str) : Except ParseErr AssetIdent :=
  match splitFirst ':' s with
  | none => .error .invalidFormat
  | some (source, rest) =>
    match splitFirst '/' rest with
    | none => .error .invalidFormat
    | some (assetType, assetId) =>
      if source = [] then .error .missingSource
      else if assetType = [] then .error .missingType
      else if assetId = [] then .error .missingId
      else if source ∉ registry then .error .unknownSource
      else if assetType ∉ knownTypes then .error .invalidAssetType
      else .ok ⟨source, assetType, assetId⟩

/-- Embedding of `AssetIdentifier.__str__`: `source:type/id`. -/
def AssetIdent.toText (i : AssetIdent) : Str :=
  i.source ++ ':' :: i.assetType ++ '/' :: i.assetId

/-- Embedding of `AssetIdentifier.is_product`. -/
def AssetIdent.is_product (i : AssetIdent) : Bool :=
  decide (i.assetType = strL "product")

/-- A string on which `from_string` must fail according to the spec:
missing colon, missing slash after the source, empty source, empty
type, empty id, or an unknown asset type token. -/
def badIdentifier (s : Str) : Bool :=
  match splitFirst ':' s with
  | none => true
  | some (source, rest) =>
    match splitFirst '/' rest with
    | none => true
    | some (assetType, assetId) =>
      source.isEmpty || assetType.isEmpty || assetId.isEmpty
        || !(decide (assetType ∈ knownTypes))

theorem colon_not_mem_of_registry {src : Str} (h : src ∈ registry) : ':' ∉ src := by
  simp only [registry, strL, List.mem_cons, List.not_mem_nil, or_false] at h
  rcases h with rfl | rfl <;> decide

theorem registry_src_ne_nil {src : Str} (h : src ∈ registry) : src ≠ [] := by
  simp only [registry, strL, List.mem_cons, List.not_mem_nil, or_false] at h
  rcases h with rfl | rfl <;> decide

theorem slash_not_mem_of_knownTypes {ty : Str} (h : ty ∈ knownTypes) : '/' ∉ ty := by
  simp only [knownTypes, strL, List.mem_cons, List.not_mem_nil, or_false] at h
  rcases h with rfl | rfl <;> decide

theorem knownTypes_ne_nil {ty : Str} (h : ty ∈ knownTypes) : ty ≠ [] := by
  simp only [knownTypes, strL, List.mem_cons, List.not_mem_nil, or_false] at h
  rcases h with rfl | rfl <;> decide

/-- C4: for every string of the form source:type/id whose source names a
registered source, whose type is one of the two known asset type tokens
and whose id is non-empty, parsing with AssetIdentifier.from_string
succeeds and formatting the result with AssetIdentifier.__str__ yields
the input string again, character for character. -/
theorem c4_identifier_roundtrip (src ty id : Str)
    (hsrc : src ∈ registry) (hty : ty ∈ knownTypes) (hid : id ≠ []) :
    (AssetIdentifier.from_string (src ++ ':' :: (ty ++ '/' :: id))).map AssetIdent.toText
      = Except.ok (src ++ ':' :: (ty ++ '/' :: id)) := by
  have hc : ':' ∉ src := colon_not_mem_of_registry hsrc
  have hs : '/' ∉ ty := slash_not_mem_of_knownTypes hty
  have h1 : src ≠ [] := registry_src_ne_nil hsrc
  have h2 : ty ≠ [] := knownTypes_ne_nil hty
  simp [AssetIdentifier.from_string, splitFirst_append src (ty ++ '/' :: id) hc,
    splitFirst_append ty id hs, h1, h2, hid, hsrc, hty, AssetIdent.toText, Except.map]

/-- Witness for C4 at the concrete input local:product/x. -/
theorem c4_identifier_roundtrip_witness :
    (AssetIdentifier.from_string
        (strL "local" ++ ':' :: (strL "product" ++ '/' :: strL "x"))).map AssetIdent.toText
      = Except.ok (strL "local" ++ ':' :: (strL "product" ++ '/' :: strL "x")) :=
  c4_identifier_roundtrip (strL "local") (strL "product") (strL "x")
    (by decide) (by decide) (by decide)

/-- C5: for every input string that lacks a colon, lacks a slash after
the source, has an empty source, empty type or empty id component, or
whose type token is not one of the two known asset types,
AssetIdentifier.from_string returns a descriptive ValueError-style parse
error and never returns an identifier. -/
theorem c5_malformed_rejected (s : Str) (h : badIdentifier s = true) :
    ∃ e : ParseErr, AssetIdentifier.from_string s = Except.error e := by
  cases hc : splitFirst ':' s with
  | none =>
    exact ⟨.invalidFormat, by simp [AssetIdentifier.from_string, hc]⟩
  | some p =>
    obtain ⟨source, rest⟩ := p
    cases hsl : splitFirst '/' rest with
    | none =>
      exact ⟨.invalidFormat, by simp [AssetIdentifier.from_string, hc, hsl]⟩
    | some q =>
      obtain ⟨ty, id⟩ := q
      simp only [badIdentifier, hc, hsl, Bool.or_eq_true, List.isEmpty_iff,
        Bool.not_eq_true', decide_eq_false_iff_not] at h
      by_cases h1 : source = []
      · exact ⟨.missingSource, by simp [AssetIdentifier.from_string, hc, hsl, h1]⟩
      by_cases h2 : ty = []
      · exact ⟨.missingType, by simp [AssetIdentifier.from_string, hc, hsl, h1, h2]⟩
      by_cases h3 : id = []
      · exact ⟨.missingId, by simp [AssetIdentifier.from_string, hc, hsl, h1, h2, h3]⟩
      have h4 : ty ∉ knownTypes := by tauto
      by_cases h5 : source ∈ registry
      · exact ⟨.invalidAssetType,
          by simp [AssetIdentifier.from_string, hc, hsl, h1, h2, h3, h4, h5]⟩
      · exact ⟨.unknownSource,
          by simp [AssetIdentifier.from_string, hc, hsl, h1, h2, h3, h5]⟩

/-- Witness for C5 at the concrete input local:/x, which has an empty
type component. -/
theorem c5_malformed_rejected_witness :
    ∃ e : ParseErr, AssetIdentifier.from_string (strL "local:/x") = Except.error e :=
  c5_malformed_rejected (strL "local:/x") (by decide)

/-! ### Federated query engine

Embedding of `src/datacontract_mcp/query/federated.py`.  The call to
`DataAssetManager.query_product` and the embedded DuckDB run are the
engine collaborators; they are passed in as function parameters `qp`
and `duck`.  The thread pool collects per-source results in an
unspecified completion order; the embedding processes the sources in
list order, one completion order the pool can exhibit. -/

/-- Collaborator signature of `DataAssetManager.query_product` as the
engine calls it: identifier, query, port id, server key, model key. -/
abbrev QueryProduct (ρ ε : Type) :=
  AssetIdent → Str → Option Str → Option Str → Option Str → Except ε (List ρ)

/-- Collaborator signature of the embedded DuckDB step: the registered
relations and the final query text. -/
abbrev DuckRun (ρ ε : Type) := List (Str × List ρ) → Str → Except ε (List ρ)

/-- The exceptions that can escape the federated engine. -/
inductive FedErr (ε : Type) where
  | noSources
  | parse (e : ParseErr)
  | notProduct (productId : Str)
  | src (e : ε)
  deriving DecidableEq, Repr

/-- Embedding of the `QuerySource` dataclass. -/
structure QuerySource where
  product_id : Str
  port_id : Option Str := none
  server : Option Str := none
  model : Option Str := none
  aliasName : Option Str := none
  deriving DecidableEq, Repr

/-- Boolean success test on an `Except` value. -/
def isOkE {ε α : Type} : Except ε α → Bool
  | .ok _ => true
  | .error _ => false

instance {ε α : Type} [DecidableEq ε] [DecidableEq α] : DecidableEq (Except ε α) :=
  fun x y =>
    match x, y with
    | .error a, .error b => decidable_of_iff (a = b) (by simp)
    | .error _, .ok _ => isFalse (by simp)
    | .ok _, .error _ => isFalse (by simp)
    | .ok a, .ok b => decidable_of_iff (a = b) (by simp)

/-- Model of Python `s.replace(a, b)` for single characters. -/
def replaceChar (a b : Char) (s : Str) : Str :=
  s.map fun c => if c = a then b else c

/-- Embedding of `FederatedQueryEngine._get_qualified_name`. -/
def FederatedQueryEngine.get_qualified_name (s : QuerySource) : Str :=
  let base := replaceChar '/' '_' (replaceChar ':' '_' s.product_id)
  match s.port_id with
  | some p => if p.isEmpty then base else base ++ '_' :: p
  | none => base

/-- Table name used for a source: the alias when truthy, else the
qualified name (`source.alias or self._get_qualified_name(source)`). -/
def FederatedQueryEngine.table_name (s : QuerySource) : Str :=
  match s.aliasName with
  | some a => if a.isEmpty then FederatedQueryEngine.get_qualified_name s else a
  | none => FederatedQueryEngine.get_qualified_name s

/-- Embedding of `FederatedQueryEngine._get_source_data`: parse the
product reference, require a product, then fully materialize the source
with a `SELECT * FROM source_data` query. -/
def FederatedQueryEngine.get_source_data {ρ ε : Type} (qp : QueryProduct ρ ε)
    (s : QuerySource) : Except (FedErr ε) (List ρ) :=
  match AssetIdentifier.from_string s.product_id with
  | .error e => .error (.parse e)
  | .ok ident =>
    if ident.is_product then
      (qp ident (strL "SELECT * FROM source_data") s.port_id s.server s.model).mapError .src
    else .error (.notProduct s.product_id)

/-- Embedding of `FederatedQueryEngine._get_source_data_parallel`: fetch
every source, keying each result dictionary entry by its table name; the
first failure aborts the whole step with that failure. -/
def FederatedQueryEngine.get_source_data_parallel {ρ ε : Type} (qp : QueryProduct ρ ε) :
    List QuerySource → List (Str × List ρ) → Except (FedErr ε) (List (Str × List ρ))
  | [], acc => .ok acc
  | s :: rest, acc =>
    match FederatedQueryEngine.get_source_data qp s with
    | .error e => .error e
    | .ok rs =>
      FederatedQueryEngine.get_source_data_parallel qp rest
        (upsertA acc (FederatedQueryEngine.table_name s) rs)

/-- The registration loop of `FederatedQueryEngine._execute_final_query`:
each result set is registered as a DuckDB relation, except that empty
result sets are skipped (`if not results: continue`). -/
def FederatedQueryEngine.registered_tables {ρ : Type}
    (sr : List (Str × List ρ)) : List (Str × List ρ) :=
  sr.filter fun p => !p.2.isEmpty

/-- Embedding of `FederatedQueryEngine._execute_final_query`: run the
caller query over the registered relations. -/
def FederatedQueryEngine.execute_final_query {ρ ε : Type} (duck : DuckRun ρ ε)
    (sr : List (Str × List ρ)) (query : Str) : Except (FedErr ε) (List ρ) :=
  (duck (FederatedQueryEngine.registered_tables sr) query).mapError .src

/-- Embedding of `FederatedQueryEngine._execute_single_source_query`:
parse, require a product, pass the caller query straight through to
`DataAssetManager.query_product`. -/
def FederatedQueryEngine.execute_single_source_query {ρ ε : Type} (qp : QueryProduct ρ ε)
    (s : QuerySource) (query : Str) : Except (FedErr ε) (List ρ) :=
  match AssetIdentifier.from_string s.product_id with
  | .error e => .error (.parse e)
  | .ok ident =>
    if ident.is_product then
      (qp ident query s.port_id s.server s.model).mapError .src
    else .error (.notProduct s.product_id)

/-- Embedding of `FederatedQueryEngine.execute_query` together with
`_execute_federated_query`: reject an empty source list, use the direct
path for a single source, otherwise fan out and run the final query. -/
def FederatedQueryEngine.execute_query {ρ ε : Type} (qp : QueryProduct ρ ε)
    (duck : DuckRun ρ ε) (query : Str) (sources : List QuerySource) :
    Except (FedErr ε) (List ρ) :=
  match sources with
  | [] => .error .noSources
  | [s] => FederatedQueryEngine.execute_single_source_query qp s query
  | s1 :: s2 :: rest =>
    match FederatedQueryEngine.get_source_data_parallel qp (s1 :: s2 :: rest) [] with
    | .error e => .error e
    | .ok sr => FederatedQueryEngine.execute_final_query duck sr query

theorem get_source_data_parallel_error {ρ ε : Type} (qp : QueryProduct ρ ε)
    (e : FedErr ε) (s : QuerySource) :
    ∀ (l : List QuerySource) (acc : List (Str × List ρ)),
      s ∈ l →
      FederatedQueryEngine.get_source_data qp s = .error e →
      (∀ s' ∈ l, s' ≠ s → isOkE (FederatedQueryEngine.get_source_data qp s') = true) →
      FederatedQueryEngine.get_source_data_parallel qp l acc = .error e := by
  intro l
  induction l with
  | nil => intro acc h; exact absurd h (List.not_mem_nil s)
  | cons a rest ih =>
    intro acc hmem herr hok
    by_cases ha : a = s
    · subst ha
      simp [FederatedQueryEngine.get_source_data_parallel, herr]
    · rcases h' : FederatedQueryEngine.get_source_data qp a with e' | rs
      · have hao := hok a (List.mem_cons_self a rest) ha
        rw [h'] at hao
        simp [isOkE] at hao
      · have hsrest : s ∈ rest := by
          rcases List.mem_cons.mp hmem with h | h
          · exact absurd h.symm ha
          · exact h
        simp only [FederatedQueryEngine.get_source_data_parallel, h']
        exact ih _ hsrest herr fun s' hs' hne => hok s' (List.mem_cons_of_mem _ hs') hne

/-- C1: in a federated query over two or more sources, if one source
fails during resolution or fetch (and the others succeed), the whole
call surfaces exactly the error of that source, so no partial or combined
result is ever returned for a multi-source query.  The thread pool
completion order is unspecified in the code; the embedding processes
sources in list order. -/
theorem c1_multi_source_failfast {ρ ε : Type} (qp : QueryProduct ρ ε) (duck : DuckRun ρ ε)
    (sources : List QuerySource) (query : Str) (s : QuerySource) (e : FedErr ε)
    (hlen : 2 ≤ sources.length) (hmem : s ∈ sources)
    (herr : FederatedQueryEngine.get_source_data qp s = .error e)
    (hrest : ∀ s' ∈ sources, s' ≠ s →
      isOkE (FederatedQueryEngine.get_source_data qp s') = true) :
    FederatedQueryEngine.execute_query qp duck query sources = .error e := by
  rcases sources with _ | ⟨s1, _ | ⟨s2, rest⟩⟩
  · simp at hlen
  · simp at hlen
  · have hpar :=
      get_source_data_parallel_error qp e s (s1 :: s2 :: rest) [] hmem herr hrest
    simp [FederatedQueryEngine.execute_query, hpar]

def qpC1 : QueryProduct Nat Nat := fun ident _ _ _ _ =>
  if ident.assetId = strL "b" then .error 7 else .ok [1]

def duckC1 : DuckRun Nat Nat := fun _ _ => .ok []

def srcC1a : QuerySource := ⟨strL "local:product/a", none, none, none, some (strL "a")⟩

def srcC1b : QuerySource := ⟨strL "local:product/b", none, none, none, some (strL "b")⟩

/-- Witness for C1: two sources, the second one failing; the federated
call surfaces exactly that error. -/
theorem c1_multi_source_failfast_witness :
    FederatedQueryEngine.execute_query qpC1 duckC1 (strL "SELECT 1") [srcC1a, srcC1b]
      = .error (FedErr.src 7) :=
  c1_multi_source_failfast qpC1 duckC1 [srcC1a, srcC1b] (strL "SELECT 1") srcC1b
    (FedErr.src 7) (by decide) (by decide) (by decide) (by decide)

/-- C2: a federated query over a source list of length exactly one is
exactly a direct `DataAssetManager.query_product` call with the same
identifier, query, port id, server key and model key; records are
returned unchanged and no virtual table step runs. -/
theorem c2_single_source_equiv {ρ ε : Type} (qp : QueryProduct ρ ε) (duck : DuckRun ρ ε)
    (s : QuerySource) (query : Str) (ident : AssetIdent)
    (hparse : AssetIdentifier.from_string s.product_id = .ok ident)
    (hprod : ident.is_product = true) :
    FederatedQueryEngine.execute_query qp duck query [s]
      = (qp ident query s.port_id s.server s.model).mapError FedErr.src := by
  simp [FederatedQueryEngine.execute_query,
    FederatedQueryEngine.execute_single_source_query, hparse, hprod]

def qpC2 : QueryProduct Nat Nat := fun _ _ _ _ _ => .ok [3, 4]

def duckC2 : DuckRun Nat Nat := fun _ _ => .ok []

def srcC2 : QuerySource := ⟨strL "local:product/a", none, none, none, none⟩

def identC2 : AssetIdent := ⟨strL "local", strL "product", strL "a"⟩

/-- Witness for C2 at a concrete single-source call. -/
theorem c2_single_source_equiv_witness :
    FederatedQueryEngine.execute_query qpC2 duckC2 (strL "SELECT * FROM t") [srcC2]
      = (qpC2 identC2 (strL "SELECT * FROM t")
          srcC2.port_id srcC2.server srcC2.model).mapError FedErr.src :=
  c2_single_source_equiv qpC2 duckC2 srcC2 (strL "SELECT * FROM t") identC2 rfl rfl

def qpC3 : QueryProduct Str Nat := fun ident _ _ _ _ =>
  if ident.assetId = strL "b" then .ok [] else .ok [strL "row"]

def duckC3 : DuckRun Str Nat := fun tables _ => .ok (tables.map Prod.fst)

def srcC3a : QuerySource := ⟨strL "local:product/a", none, none, none, some (strL "a")⟩

def srcC3b : QuerySource := ⟨strL "local:product/b", none, none, none, some (strL "b")⟩

/-- Counterexample for C3: source b is fetched successfully with zero
rows, yet the relation b is not registered before the final combinator
query runs; the DuckDB step (here reporting the names it was given)
sees only table a, contradicting the claim that empty result sets are
still registered. -/
theorem c3_counterexample :
    FederatedQueryEngine.get_source_data qpC3 srcC3b = .ok []
    ∧ FederatedQueryEngine.execute_query qpC3 duckC3 (strL "SELECT 1") [srcC3a, srcC3b]
        = .ok [strL "a"]
    ∧ strL "b" ∉ [strL "a"] := by
  refine ⟨rfl, rfl, by decide⟩

/-- C3 amended: every successfully fetched non-empty per-source result
set is registered under its table name before the final combinator
query runs, but a zero-row result set is skipped by the registration
loop, so its table name is never registered. -/
theorem c3_amended_registration {ρ : Type} (sr : List (Str × List ρ))
    (name : Str) (rs : List ρ) :
    ((name, rs) ∈ sr → rs ≠ [] → (name, rs) ∈ FederatedQueryEngine.registered_tables sr)
    ∧ (rs = [] → (name, rs) ∉ FederatedQueryEngine.registered_tables sr) := by
  constructor
  · intro hmem hne
    simp only [FederatedQueryEngine.registered_tables, List.mem_filter]
    exact ⟨hmem, by simp [hne]⟩
  · intro hnil
    subst hnil
    simp [FederatedQueryEngine.registered_tables, List.mem_filter]

/-- Witness for the amended C3: a non-empty result set stays registered
while the zero-row one is dropped. -/
theorem c3_amended_registration_witness :
    (strL "a", [(1 : Nat)]) ∈ FederatedQueryEngine.registered_tables
        [(strL "a", [(1 : Nat)]), (strL "b", ([] : List Nat))]
    ∧ (strL "b", ([] : List Nat)) ∉ FederatedQueryEngine.registered_tables
        [(strL "a", [(1 : Nat)]), (strL "b", ([] : List Nat))] :=
  ⟨(c3_amended_registration [(strL "a", [1]), (strL "b", [])] (strL "a") [1]).1
      (by decide) (by decide),
    (c3_amended_registration [(strL "a", [1]), (strL "b", [])] (strL "b") []).2 rfl⟩

/-! ### Asset source registry listing

Embedding of `AssetSourceRegistry.list_assets` from
`src/datacontract_mcp/sources/asset_source.py`: the registry walks the
available sources and extends one accumulator with each source listing,
catching and logging any per-source exception instead of propagating
it.  An element of `outcomes` is the name of an available source paired
with the outcome of its `list_assets` call. -/

/-- Embedding of `AssetSourceRegistry.list_assets`. -/
def AssetSourceRegistry.list_assets {ι ε : Type}
    (outcomes : List (Str × Except ε (List ι))) : List ι :=
  outcomes.foldl
    (fun acc p => match p.2 with | .ok xs => acc ++ xs | .error _ => acc) []

theorem list_assets_foldl_acc {ι ε : Type}
    (outcomes : List (Str × Except ε (List ι))) :
    ∀ acc : List ι,
      outcomes.foldl
          (fun acc p => match p.2 with | .ok xs => acc ++ xs | .error _ => acc) acc
        = acc ++ (outcomes.filterMap fun p => p.2.toOption).flatten := by
  induction outcomes with
  | nil => intro acc; simp
  | cons p rest ih =>
    intro acc
    cases hp : p.2 with
    | ok xs => simp [List.foldl_cons, hp, ih, Except.toOption]
    | error e => simp [List.foldl_cons, hp, ih, Except.toOption]

/-- C6: the registry listing returns exactly the concatenation of the
listings of the sources whose `list_assets` call succeeded, in source
order; a failing source contributes nothing, and because the function
is total on the outcome list, no per-source exception escapes the
registry boundary. -/
theorem c6_listing_best_effort {ι ε : Type}
    (outcomes : List (Str × Except ε (List ι))) :
    AssetSourceRegistry.list_assets outcomes
      = (outcomes.filterMap fun p => p.2.toOption).flatten := by
  simpa using list_assets_foldl_acc outcomes []

/-! ### Resolution manager port routing

Embedding of the branch of `DataAssetManager.query_product` that picks
between the contract path, the direct-port path and the failure case
(lines 311 to 337 of `src/datacontract_mcp/asset_manager.py`), plus
`DataAssetManager._create_server_config_from_port`.  Python truthiness
of optional strings and dictionaries is modelled explicitly. -/

/-- Output port dictionary fields relevant to routing. -/
structure OutputPort where
  id : Option Str := none
  type : Option Str := none
  location : Option Str := none
  server : Option (List (Str × Str)) := none
  dataContractId : Option Str := none
  deriving DecidableEq, Repr

/-- Truthiness of `port.get(field)` for a string field. -/
def optStrTruthy : Option Str → Bool
  | none => false
  | some s => !s.isEmpty

/-- Truthiness of `port.get("server")` for a dictionary field. -/
def optDictTruthy : Option (List (Str × Str)) → Bool
  | none => false
  | some d => !d.isEmpty

/-- `AssetQueryError` cases raised by the port routing code. -/
inductive QPErr where
  | neitherContractNorServer (portId : Str)
  | noServerInfo
  deriving DecidableEq, Repr

/-- How `query_product` dispatches the query for the selected port. -/
inductive Route where
  | contract (contractId : Str)
  | direct (serverConfig : List (Str × Str)) (modelKey : Str)
  deriving DecidableEq, Repr

/-- Embedding of `DataAssetManager._create_server_config_from_port`:
return the server block as is when truthy, fall back to a bare
`{location}` config when the port has truthy type and location, and
fail otherwise. -/
def DataAssetManager.create_server_config_from_port (port : OutputPort) :
    Except QPErr (List (Str × Str)) :=
  if optDictTruthy port.server then .ok (port.server.getD [])
  else if optStrTruthy port.type && optStrTruthy port.location then
    .ok [(strL "location", port.location.getD [])]
  else .error .noServerInfo

/-- Embedding of the port-branch of `DataAssetManager.query_product`
for an already selected output port: contract path when
`dataContractId` is truthy, direct path when the explicit `server`
block is truthy, and the neither-contract-nor-server `AssetQueryError`
otherwise. -/
def DataAssetManager.query_product_route (port : OutputPort) (model_key : Option Str) :
    Except QPErr Route :=
  let pid := port.id.getD (strL "unknown")
  if optStrTruthy port.dataContractId then
    .ok (.contract (port.dataContractId.getD []))
  else if optDictTruthy port.server then
    (DataAssetManager.create_server_config_from_port port).map fun cfg =>
      .direct cfg
        (match model_key with
          | some m => if m.isEmpty then pid else m
          | none => pid)
  else .error (.neitherContractNorServer pid)

/-- A port with type and location but no server block and no contract
reference. -/
def portC7 : OutputPort :=
  { id := some (strL "p1"), type := some (strL "local"),
    location := some (strL "data.csv"), server := none, dataContractId := none }

/-- C7: evaluation at the failing input.  A port carrying type and
location but no explicit server block makes `query_product` raise the
neither-contract-nor-server error instead of dispatching directly,
even though `_create_server_config_from_port` on the same port would
produce the `{location}` fallback config; the fallback is unreachable
from `query_product` because the direct path is guarded by the truthiness
of the explicit server block alone. -/
theorem c7_type_location_port_fails :
    DataAssetManager.query_product_route portC7 none
      = .error (.neitherContractNorServer (strL "p1"))
    ∧ DataAssetManager.create_server_config_from_port portC7
      = .ok [(strL "location", strL "data.csv")]
    ∧ ∀ r : Route, DataAssetManager.query_product_route portC7 none ≠ .ok r := by
  refine ⟨rfl, rfl, ?_⟩
  intro r h
  simp [DataAssetManager.query_product_route, DataAssetManager.create_server_config_from_port,
    optStrTruthy, optDictTruthy, portC7] at h

/-! ### Plugin registries

Embedding of `AssetSourceRegistry.register_source` and
`DataSourceRegistry.register_source` (their bodies are identical up to
the names in log messages) together with the corresponding `get_source`
instance caches.  A plugin class is an opaque value of type `κ`; an
instance is modelled by the class it was created from, which is what
the claims about instance invalidation observe.  Discovery and
environment configuration do not affect the registration logic and are
omitted. -/

/-- The mutable state of one registry: the class registry dictionary
and the instance cache dictionary. -/
structure RegState (κ : Type) where
  reg : List (Str × κ)
  inst : List (Str × κ)
  deriving DecidableEq, Repr

/-- Embedding of `register_source` (shared by both registries): keep
the state when re-registering the same class, otherwise replace the
binding and delete any cached instance for the name. -/
def SourceRegistry.register_source {κ : Type} [DecidableEq κ]
    (st : RegState κ) (name : Str) (c : κ) : RegState κ :=
  match lookupA st.reg name with
  | some c' =>
    if c' = c then st
    else { reg := upsertA st.reg name c, inst := eraseA st.inst name }
  | none => { reg := upsertA st.reg name c, inst := eraseA st.inst name }

/-- Embedding of `AssetSourceRegistry.get_source`: return the cached
instance when present, otherwise instantiate the registered class and
cache it; `none` when the name is not registered. -/
def AssetSourceRegistry.get_source {κ : Type} (st : RegState κ) (name : Str) :
    Option κ × RegState κ :=
  match lookupA st.inst name with
  | some inst => (some inst, st)
  | none =>
    match lookupA st.reg name with
    | none => (none, st)
    | some c => (some c, { st with inst := upsertA st.inst name c })

/-- Embedding of `DataSourceRegistry.get_source`: identical to the
asset variant except that the server type `file` is treated as an alias
of `local` when `file` itself is not registered. -/
def DataSourceRegistry.get_source {κ : Type} (st : RegState κ) (name : Str) :
    Option κ × RegState κ :=
  let name' :=
    if name = strL "file" ∧ (lookupA st.reg name).isNone
        ∧ (lookupA st.reg (strL "local")).isSome
    then strL "local" else name
  AssetSourceRegistry.get_source st name'

theorem fst_mem_upsertA {ν α : Type} [DecidableEq ν]
    (l : List (ν × α)) (k a : ν) (v : α) :
    a ∈ (upsertA l k v).map Prod.fst ↔ a ∈ l.map Prod.fst ∨ a = k := by
  induction l with
  | nil => simp [upsertA]
  | cons p rest ih =>
    by_cases h : p.1 = k
    · simp [upsertA, h]
      tauto
    · simp [upsertA, h, ih]
      tauto

theorem nodup_upsertA {ν α : Type} [DecidableEq ν]
    (l : List (ν × α)) (k : ν) (v : α) (h : (l.map Prod.fst).Nodup) :
    ((upsertA l k v).map Prod.fst).Nodup := by
  induction l with
  | nil => simp [upsertA]
  | cons p rest ih =>
    rw [List.map_cons, List.nodup_cons] at h
    by_cases hk : p.1 = k
    · subst hk
      have h' := List.nodup_cons.mpr h
      simpa [upsertA] using h'
    · simp only [upsertA, if_neg hk, List.map_cons, List.nodup_cons]
      refine ⟨?_, ih h.2⟩
      rw [fst_mem_upsertA]
      rintro (hmem | rfl)
      · exact h.1 hmem
      · exact hk rfl

/-- C8: registering a different plugin class under an already bound
name replaces the binding, deletes any cached instance for that name,
keeps the registry at one binding per name, and makes the next
`get_source` call (asset flavor and data flavor alike) hand out the
new class rather than the old instance. -/
theorem c8_reregistration_replaces {κ : Type} [DecidableEq κ]
    (st : RegState κ) (name : Str) (cOld cNew : κ)
    (hold : lookupA st.reg name = some cOld) (hdiff : cOld ≠ cNew) :
    lookupA (SourceRegistry.register_source st name cNew).reg name = some cNew
    ∧ lookupA (SourceRegistry.register_source st name cNew).inst name = none
    ∧ (AssetSourceRegistry.get_source (SourceRegistry.register_source st name cNew) name).1
        = some cNew
    ∧ (DataSourceRegistry.get_source (SourceRegistry.register_source st name cNew) name).1
        = some cNew
    ∧ ((st.reg.map Prod.fst).Nodup →
        ((SourceRegistry.register_source st name cNew).reg.map Prod.fst).Nodup) := by
  have hreg : SourceRegistry.register_source st name cNew =
      { reg := upsertA st.reg name cNew, inst := eraseA st.inst name } := by
    simp [SourceRegistry.register_source, hold, hdiff]
  rw [hreg]
  refine ⟨lookupA_upsertA_self st.reg name cNew, lookupA_eraseA_self st.inst name,
    ?_, ?_, fun hn => nodup_upsertA st.reg name cNew hn⟩
  · simp [AssetSourceRegistry.get_source, lookupA_eraseA_self, lookupA_upsertA_self]
  · simp [DataSourceRegistry.get_source, AssetSourceRegistry.get_source,
      lookupA_eraseA_self, lookupA_upsertA_self]

def stC8 : RegState Nat := ⟨[(strL "s3", 1)], [(strL "s3", 1)]⟩

/-- Witness for C8: the s3 server type is rebound from class 1 to
class 2; the cached instance of class 1 is dropped and both get_source
flavors hand out class 2. -/
theorem c8_reregistration_replaces_witness :
    lookupA (SourceRegistry.register_source stC8 (strL "s3") 2).reg (strL "s3") = some 2
    ∧ lookupA (SourceRegistry.register_source stC8 (strL "s3") 2).inst (strL "s3") = none
    ∧ (AssetSourceRegistry.get_source
        (SourceRegistry.register_source stC8 (strL "s3") 2) (strL "s3")).1 = some 2
    ∧ (DataSourceRegistry.get_source
        (SourceRegistry.register_source stC8 (strL "s3") 2) (strL "s3")).1 = some 2
    ∧ ((stC8.reg.map Prod.fst).Nodup →
        ((SourceRegistry.register_source stC8 (strL "s3") 2).reg.map Prod.fst).Nodup) :=
  c8_reregistration_replaces stC8 (strL "s3") 1 2 rfl (by decide)

/-! ### Metadata cache with TTL

Embedding of `DataMeshManagerSource._update_cache` and
`DataMeshManagerSource._get_from_cache` from
`src/dataproduct_mcp/sources/asset_plugins/datameshmanager.py`.  The
document cache is keyed by asset type and cache key; the expiry
dictionary is keyed by cache key alone.  Wall-clock instants from
`time.time()` are modelled as natural numbers, which preserves the
comparison logic the claim is about. -/

/-- Cache state of the DataMeshManager source plugin. -/
structure DmmCache (δ : Type) where
  cache : List ((Str × Str) × δ)
  expiry : List (Str × Nat)
  deriving DecidableEq, Repr

/-- Embedding of `DataMeshManagerSource._update_cache` at instant
`now` with the configured TTL. -/
def DataMeshManagerSource.update_cache {δ : Type} (st : DmmCache δ)
    (assetType key : Str) (data : δ) (now ttl : Nat) : DmmCache δ :=
  { cache := upsertA st.cache (assetType, key) data,
    expiry := upsertA st.expiry key (now + ttl) }

/-- Embedding of `DataMeshManagerSource._get_from_cache` at instant
`now`: absent entry, missing expiry, or `expiry < now` all yield
`none`; otherwise the cached document is returned. -/
def DataMeshManagerSource.get_from_cache {δ : Type} (st : DmmCache δ)
    (assetType key : Str) (now : Nat) : Option δ :=
  match lookupA st.cache (assetType, key) with
  | none => none
  | some d =>
    match lookupA st.expiry key with
    | none => none
    | some exp => if exp < now then none else some d

/-- A cache holding one product document whose expiry instant is 100. -/
def stC9 : DmmCache Nat :=
  { cache := [((strL "product", strL "k"), 42)], expiry := [(strL "k", 100)] }

/-- Counterexample for C9: at the instant equal to the recorded expiry
the claim demands an absent result, but the code only discards an entry
when the expiry is strictly in the past, so the lookup at `now = 100`
with `expiresAt = 100` still returns the cached document. -/
theorem c9_counterexample :
    lookupA stC9.expiry (strL "k") = some 100
    ∧ (100 : Nat) ≥ 100
    ∧ DataMeshManagerSource.get_from_cache stC9 (strL "product") (strL "k") 100 = some 42 :=
  ⟨rfl, le_refl 100, rfl⟩

/-- C9 amended: a lookup returns the cached value only when
`now ≤ expiresAt`; when `now > expiresAt`, or when no expiry is
recorded, the entry is treated as absent — in particular a load
strictly after the instant written by `_update_cache` (insertion time
plus TTL) misses the cache and therefore performs a fresh fetch. -/
theorem c9_ttl_amended {δ : Type} (st : DmmCache δ) (assetType key : Str) (now : Nat) :
    (∀ exp, lookupA st.expiry key = some exp → exp < now →
      DataMeshManagerSource.get_from_cache st assetType key now = none)
    ∧ (lookupA st.expiry key = none →
      DataMeshManagerSource.get_from_cache st assetType key now = none)
    ∧ (∀ d, DataMeshManagerSource.get_from_cache st assetType key now = some d →
      lookupA st.cache (assetType, key) = some d
        ∧ ∃ exp, lookupA st.expiry key = some exp ∧ now ≤ exp)
    ∧ (∀ (d : δ) (t0 ttl : Nat), t0 + ttl < now →
      DataMeshManagerSource.get_from_cache
        (DataMeshManagerSource.update_cache st assetType key d t0 ttl)
        assetType key now = none) := by
  refine ⟨?_, ?_, ?_, ?_⟩
  · intro exp hexp hlt
    unfold DataMeshManagerSource.get_from_cache
    cases lookupA st.cache (assetType, key) with
    | none => rfl
    | some d => simp [hexp, hlt]
  · intro hnone
    unfold DataMeshManagerSource.get_from_cache
    cases lookupA st.cache (assetType, key) with
    | none => rfl
    | some d => simp [hnone]
  · intro d h
    unfold DataMeshManagerSource.get_from_cache at h
    cases hc : lookupA st.cache (assetType, key) with
    | none => simp [hc] at h
    | some d' =>
      cases he : lookupA st.expiry key with
      | none => simp [hc, he] at h
      | some exp =>
        simp only [hc, he] at h
        by_cases hlt : exp < now
        · simp [hlt] at h
        · simp only [if_neg hlt, Option.some.injEq] at h
          subst h
          exact ⟨rfl, exp, rfl, Nat.le_of_not_lt hlt⟩
  · intro d t0 ttl hlt
    unfold DataMeshManagerSource.get_from_cache DataMeshManagerSource.update_cache
    simp [lookupA_upsertA_self, hlt]

/-- Witness for the amended C9: the entry written at instant 10 with a
TTL of 20 is absent at instant 31. -/
theorem c9_ttl_amended_witness :
    DataMeshManagerSource.get_from_cache
      (DataMeshManagerSource.update_cache stC9 (strL "product") (strL "k") 7 10 20)
      (strL "product") (strL "k") 31 = none :=
  (c9_ttl_amended stC9 (strL "product") (strL "k") 31).2.2.2 7 10 20 (by decide)

/-! ### Manager-level unified query

Embedding of `DataAssetManager.execute_query` from
`src/datacontract_mcp/asset_manager.py`: dictionary sources are
converted to `QuerySource` values (a missing `product_id` key is a
`ValueError`), the federated engine runs, and when metadata is
requested the records are wrapped in an envelope whose `federated`
field is the literal `True` and whose `record_count` is the length of
the records list. -/

/-- A source dictionary as passed by the caller; `product_id := none`
models a dictionary without the `product_id` key. -/
structure RawSource where
  product_id : Option Str := none
  port_id : Option Str := none
  server : Option Str := none
  model : Option Str := none
  aliasName : Option Str := none
  deriving DecidableEq, Repr

/-- Errors escaping `DataAssetManager.execute_query`. -/
inductive MgrErr (ε : Type) where
  | noSources
  | missingProductId
  | engine (e : FedErr ε)
  deriving DecidableEq, Repr

/-- The conversion loop of `execute_query` from source dictionaries to
`QuerySource` values. -/
def toQuerySources {ε : Type} : List RawSource → Except (MgrErr ε) (List QuerySource)
  | [] => .ok []
  | r :: rest =>
    match r.product_id with
    | none => .error .missingProductId
    | some pid =>
      (toQuerySources rest).map
        (fun qs => ⟨pid, r.port_id, r.server, r.model, r.aliasName⟩ :: qs)

/-- The metadata envelope of `execute_query`. -/
structure FedMetadata where
  query : Str
  sources : List (Str × Option Str)
  federated : Bool
  record_count : Nat
  deriving DecidableEq, Repr

/-- Result shape of `execute_query`: raw records, or the metadata
envelope when `include_metadata` is set. -/
inductive QueryResponse (ρ : Type) where
  | plain (records : List ρ)
  | envelope (metadata : FedMetadata) (records : List ρ)
  deriving DecidableEq, Repr

/-- Embedding of `DataAssetManager.execute_query`. -/
def DataAssetManager.execute_query {ρ ε : Type} (qp : QueryProduct ρ ε)
    (duck : DuckRun ρ ε) (sources : List RawSource) (query : Str)
    (include_metadata : Bool) : Except (MgrErr ε) (QueryResponse ρ) :=
  if sources.isEmpty then .error .noSources
  else
    match toQuerySources sources with
    | .error e => .error e
    | .ok qss =>
      match (FederatedQueryEngine.execute_query qp duck query qss).mapError MgrErr.engine with
      | .error e => .error e
      | .ok results =>
        if include_metadata then
          .ok (.envelope
            { query := query,
              sources := qss.map fun s => (s.product_id, s.port_id),
              federated := true,
              record_count := results.length } results)
        else .ok (.plain results)

/-- C10: whenever `execute_query` is called with `include_metadata`
set and succeeds — including single-source calls, whose fast path is
not reflected in the metadata — the returned envelope has `federated`
equal to `true` and `record_count` equal to the length of the returned
records list. -/
theorem c10_metadata_always_federated {ρ ε : Type} (qp : QueryProduct ρ ε)
    (duck : DuckRun ρ ε) (sources : List RawSource) (query : Str)
    (resp : QueryResponse ρ)
    (h : DataAssetManager.execute_query qp duck sources query true = .ok resp) :
    ∃ m rs, resp = .envelope m rs ∧ m.federated = true ∧ m.record_count = rs.length := by
  unfold DataAssetManager.execute_query at h
  split at h
  · exact absurd h (by simp)
  · split at h
    · exact absurd h (by simp)
    · split at h
      · exact absurd h (by simp)
      · rw [if_pos rfl] at h
        cases h
        exact ⟨_, _, rfl, rfl, rfl⟩

def qpC10 : QueryProduct Nat Nat := fun _ _ _ _ _ => .ok [5, 6]

def duckC10 : DuckRun Nat Nat := fun _ _ => .ok []

def rawC10 : RawSource := ⟨some (strL "local:product/a"), none, none, none, none⟩

/-- The envelope produced for the single-source witness call. -/
def respC10 : QueryResponse Nat :=
  .envelope
    { query := strL "q", sources := [(strL "local:product/a", none)],
      federated := true, record_count := 2 } [5, 6]

/-- Witness for C10: a single-source call with metadata requested still
reports `federated = true` and the correct record count. -/
theorem c10_metadata_always_federated_witness :
    ∃ m rs, respC10 = QueryResponse.envelope m rs
      ∧ m.federated = true ∧ m.record_count = rs.length :=
  c10_metadata_always_federated qpC10 duckC10 [rawC10] (strL "q") respC10 rfl

end DCMcp
